import Mathlib

/-!
Verification of the `NetworkMessage` buffer type and the inbound capture
pipeline of the proxy (src/main.rs).

The embedding models the Rust struct `NetworkMessage` shallowly:

* `buffer: Vec<u8>` becomes a function `Nat → Nat` (byte at each index)
  together with `bufLen`, the size of the backing allocation
  (`vec![0; NETWORKMESSAGE_MAXSIZE]` initially; `Vec::resize` grows it).
* `&mut self` methods become functions `NetworkMessage → ... × NetworkMessage`
  returning the result together with the updated state.
* A fixed-width scalar value of type `T` is represented by its byte-level
  object representation, a `List Nat` of length `size_of::<T>()`; this makes
  "bit-identical" literal list equality, and `T::default()` for the numeric
  types used on this code path is the all-zero representation.
* Rust `Result<A, NetworkMessageError>` becomes `Except NetworkMessageError A`.
* A Rust `String` is represented by its UTF-8 byte content (`List Nat`),
  since `str::from_utf8` is the identity on the underlying bytes and two
  Rust strings are equal iff their byte contents are equal.
-/

def NETWORKMESSAGE_MAXSIZE : Nat := 65500

def INITIAL_BUFFER_POSITION : Nat := 8

def MAX_BODY_LENGTH : Nat := NETWORKMESSAGE_MAXSIZE - 2 - 4 - 8

structure NetworkMessage where
  buffer : Nat → Nat
  bufLen : Nat
  position : Nat
  length : Nat
  overrun : Bool

inductive NetworkMessageError where
  | SizeError
  | ReadError
  | InvalidUtf8
deriving DecidableEq, Repr

/-- Reads `len` bytes of `buf` starting at index `start`
(the slice `buf[start..start + len]`). -/
def readBytes (buf : Nat → Nat) (start len : Nat) : List Nat :=
  (List.range len).map (fun i => buf (start + i))

/-- Overwrites `buf[start..start + bs.length]` with `bs`
(`copy_from_slice`). -/
def writeBytes (buf : Nat → Nat) (start : Nat) (bs : List Nat) : Nat → Nat :=
  fun i => if start ≤ i ∧ i < start + bs.length then bs.getD (i - start) 0 else buf i

/-- Modelled from the spec: continuation byte of a multi-byte UTF-8 scalar
(`0x80..=0xBF`); part of the UTF-8 well-formedness check performed by the
standard library routine `std::str::from_utf8`, which is not part of this
repository. -/
def utf8ContOK (b : Nat) : Bool :=
  decide (0x80 ≤ b) && decide (b ≤ 0xBF)

/-- Modelled from the spec: `get_string` "decodes the byte range as UTF-8;
fails with InvalidUtf8 if decoding fails". The decoding routine
(`std::str::from_utf8`) is standard-library code outside this repository, so
UTF-8 well-formedness (RFC 3629: no overlong forms, no surrogates, scalar
values at most U+10FFFF) is modelled here directly. -/
def utf8Valid : List Nat → Bool
  | [] => true
  | b :: rest =>
    if b < 0x80 then
      utf8Valid rest
    else if 0xC2 ≤ b ∧ b ≤ 0xDF then
      match rest with
      | c1 :: r => utf8ContOK c1 && utf8Valid r
      | [] => false
    else if b = 0xE0 then
      match rest with
      | c1 :: c2 :: r =>
        (decide (0xA0 ≤ c1) && decide (c1 ≤ 0xBF)) && utf8ContOK c2 && utf8Valid r
      | _ => false
    else if (0xE1 ≤ b ∧ b ≤ 0xEC) ∨ b = 0xEE ∨ b = 0xEF then
      match rest with
      | c1 :: c2 :: r => utf8ContOK c1 && utf8ContOK c2 && utf8Valid r
      | _ => false
    else if b = 0xED then
      match rest with
      | c1 :: c2 :: r =>
        (decide (0x80 ≤ c1) && decide (c1 ≤ 0x9F)) && utf8ContOK c2 && utf8Valid r
      | _ => false
    else if b = 0xF0 then
      match rest with
      | c1 :: c2 :: c3 :: r =>
        (decide (0x90 ≤ c1) && decide (c1 ≤ 0xBF)) && utf8ContOK c2 && utf8ContOK c3 &&
          utf8Valid r
      | _ => false
    else if 0xF1 ≤ b ∧ b ≤ 0xF3 then
      match rest with
      | c1 :: c2 :: c3 :: r =>
        utf8ContOK c1 && utf8ContOK c2 && utf8ContOK c3 && utf8Valid r
      | _ => false
    else if b = 0xF4 then
      match rest with
      | c1 :: c2 :: c3 :: r =>
        (decide (0x80 ≤ c1) && decide (c1 ≤ 0x8F)) && utf8ContOK c2 && utf8ContOK c3 &&
          utf8Valid r
      | _ => false
    else
      false

/-- Little-endian reinterpretation of (at most two) copied bytes as a `u16`,
as produced by `get::<u16>()`: the unsafe `ptr::copy_nonoverlapping` into a
`u16` on the little-endian targets this proxy runs on. -/
def u16ofBytes (bs : List Nat) : Nat :=
  bs.getD 0 0 + 256 * bs.getD 1 0

namespace NetworkMessage

/-- `NetworkMessage::new`. -/
def new : NetworkMessage where
  buffer := fun _ => 0
  bufLen := NETWORKMESSAGE_MAXSIZE
  position := INITIAL_BUFFER_POSITION
  length := 0
  overrun := false

/-- `NetworkMessage::can_add`. -/
def can_add (m : NetworkMessage) (size : Nat) : Bool :=
  decide (size + m.position < MAX_BODY_LENGTH)

/-- `NetworkMessage::can_read`. -/
def can_read (m : NetworkMessage) (size : Nat) : Bool :=
  if (m.position + size > m.length + INITIAL_BUFFER_POSITION) ∨
      (size ≥ NETWORKMESSAGE_MAXSIZE - m.position) then
    false
  else
    true

/-- The 2-byte little-endian length field at offset 0 read by `decode_header`:
`(buffer[0] as i32) | ((buffer[1] as i32) << 8)`. Both operands come from `u8`,
so the `i32` value equals the same bit-or computed over `Nat`. -/
def decodedHeaderValue (m : NetworkMessage) : Nat :=
  Nat.lor (m.buffer 0) (Nat.shiftLeft (m.buffer 1) 8)

/-- `NetworkMessage::decode_header`. -/
def decode_header (m : NetworkMessage) : Int × NetworkMessage :=
  if m.length < 2 then
    (0, m)
  else
    let new_size : Int := Int.ofNat m.decodedHeaderValue
    if new_size < 0 ∨ new_size.toNat > NETWORKMESSAGE_MAXSIZE then
      (0, m)
    else
      ((new_size.toNat : Int), { m with length := new_size.toNat })

/-- `NetworkMessage::add_bytes`. -/
def add_bytes (m : NetworkMessage) (bytes : List Nat) :
    Except NetworkMessageError Unit × NetworkMessage :=
  if bytes.isEmpty then
    (.error .SizeError, m)
  else if !(m.can_add bytes.length) then
    (.error .SizeError, m)
  else if bytes.length > NETWORKMESSAGE_MAXSIZE then
    (.error .SizeError, m)
  else
    let m1 :=
      if m.bufLen < m.position + bytes.length then
        { m with bufLen := m.position + bytes.length }
      else
        m
    (.ok (),
      { m1 with
        buffer := writeBytes m1.buffer m1.position bytes
        position := m1.position + bytes.length
        length := m1.length + bytes.length })

/-- `NetworkMessage::add`: the scalar argument is represented by its byte-level
object representation `value`, of length `size_of::<T>()`. -/
def add (m : NetworkMessage) (value : List Nat) :
    Except NetworkMessageError Unit × NetworkMessage :=
  if !(m.can_add value.length) then
    (.error .SizeError, m)
  else
    (.ok (),
      { m with
        buffer := writeBytes m.buffer m.position value
        position := m.position + value.length
        length := m.length + value.length })

/-- `NetworkMessage::get` for a scalar of byte width `size`: returns the byte
representation read from the buffer, or the all-zero representation
(`T::default()` for the numeric types used here) without advancing the cursor
when the bounds check fails. The Rust signature returns `T` directly — there
is no error channel. -/
def get (m : NetworkMessage) (size : Nat) : List Nat × NetworkMessage :=
  if !(m.can_read size) then
    (List.replicate size 0, m)
  else
    (readBytes m.buffer m.position size, { m with position := m.position + size })

/-- `NetworkMessage::get_string`; the returned string is represented by its
UTF-8 byte content. -/
def get_string (m : NetworkMessage) (stringLen : Option Nat) :
    Except NetworkMessageError (List Nat) × NetworkMessage :=
  let resolved : Nat × NetworkMessage :=
    match stringLen with
    | some len => (len, m)
    | none =>
      let r := m.get 2
      (u16ofBytes r.1, r.2)
  let len := resolved.1
  let m1 := resolved.2
  if len = 0 then
    (.ok [], m1)
  else if !(m1.can_read len) then
    (.error .ReadError, { m1 with overrun := true })
  else
    let start := m1.position
    let m2 := { m1 with position := m1.position + len }
    let s := readBytes m1.buffer start len
    if utf8Valid s then
      (.ok s, m2)
    else
      (.error .InvalidUtf8, m2)

end NetworkMessage

/-- One iteration of the inbound-capture loop body in `handle_connection`:
a fresh `NetworkMessage` per chunk; on `add_bytes` error the loop `continue`s
without forwarding (`none`); otherwise `get_string(None)` is attempted purely
for diagnostics (its result is only logged) and the original chunk bytes are
sent to the forwarding queue (`some bytes`). -/
def processChunk (bytes : List Nat) : Option (List Nat) :=
  match NetworkMessage.new.add_bytes bytes with
  | (.error _, _) => none
  | (.ok _, m1) =>
    let _diag := m1.get_string none
    some bytes

/-- The sequence of chunks pushed onto the forwarding queue by the
inbound-capture loop when the framed reader delivers `chunks`, in order. -/
def captureForward (chunks : List (List Nat)) : List (List Nat) :=
  chunks.filterMap processChunk

/-- Reachability invariant of a `NetworkMessage`: the backing allocation still
has its initial 65500-byte size and the cursor lies strictly inside it. -/
def BufferInv (m : NetworkMessage) : Prop :=
  m.bufLen = NETWORKMESSAGE_MAXSIZE ∧ m.position < NETWORKMESSAGE_MAXSIZE

/-- State with a single byte 0xFF (never valid in UTF-8) declared at the
initial cursor offset 8. -/
def badUtf8State : NetworkMessage where
  buffer := fun i => if i = 8 then 255 else 0
  bufLen := 65500
  position := 8
  length := 1
  overrun := false

theorem NETWORKMESSAGE_MAXSIZE_eq : NETWORKMESSAGE_MAXSIZE = 65500 := rfl

theorem INITIAL_BUFFER_POSITION_eq : INITIAL_BUFFER_POSITION = 8 := rfl

theorem MAX_BODY_LENGTH_eq : MAX_BODY_LENGTH = 65486 := rfl

/-- Reading back the window just written yields exactly the written bytes. -/
theorem readBytes_writeBytes (buf : Nat → Nat) (p : Nat) (bs : List Nat) :
    readBytes (writeBytes buf p bs) p bs.length = bs := by
  apply List.ext_getElem
  · simp [readBytes]
  · intro i h1 h2
    simp only [readBytes, writeBytes, List.getElem_map, List.getElem_range]
    rw [if_pos (by constructor <;> omega)]
    rw [Nat.add_sub_cancel_left]
    exact List.getD_eq_getElem bs 0 h2

/-- Arithmetic characterization of `can_read`. -/
theorem can_read_eq_true_iff (m : NetworkMessage) (size : Nat) :
    m.can_read size = true ↔
      m.position + size ≤ m.length + INITIAL_BUFFER_POSITION ∧
        size < NETWORKMESSAGE_MAXSIZE - m.position := by
  unfold NetworkMessage.can_read
  split <;> rename_i h <;> simp <;> omega

/-- Arithmetic characterization of `can_add`. -/
theorem can_add_eq_true_iff (m : NetworkMessage) (size : Nat) :
    m.can_add size = true ↔ size + m.position < MAX_BODY_LENGTH := by
  simp [NetworkMessage.can_add]

/-- C1: when the read-bounds invariant fails (`position + sizeof(T) >
length + 8`, or `sizeof(T) >= capacity - position`), `get` returns the
scalar's zero/default value, raises no error (the return type has no error
channel), and leaves the cursor unchanged. -/
theorem get_out_of_bounds_returns_default (m : NetworkMessage) (w : Nat)
    (h : m.position + w > m.length + INITIAL_BUFFER_POSITION ∨
        w ≥ NETWORKMESSAGE_MAXSIZE - m.position) :
    m.get w = (List.replicate w 0, m) := by
  unfold NetworkMessage.get
  rw [show m.can_read w = false from by unfold NetworkMessage.can_read; rw [if_pos h]]
  rfl

/-- C1 witness: on a fresh buffer reading one byte already violates
`position + 1 > length + 8`, and `get` yields the zero byte with the state
untouched. -/
theorem get_out_of_bounds_returns_default_app :
    NetworkMessage.new.get 1 = (List.replicate 1 0, NetworkMessage.new) :=
  get_out_of_bounds_returns_default NetworkMessage.new 1 (Or.inl (by decide))

/-- C8: `get_string(Some(0))` returns the empty string immediately, without
advancing the cursor, consuming buffer bytes, or changing any field. -/
theorem get_string_zero_len_noop (m : NetworkMessage) :
    m.get_string (some 0) = (.ok [], m) := rfl

/-- C4: `add_bytes` returns SizeError exactly when the payload is empty, the
write-bounds invariant `position + bytes.len() < capacity - 14` fails, or the
payload exceeds the buffer capacity; in every such case the state (hence
`position` and `length`) is unchanged, and otherwise the call succeeds. -/
theorem add_bytes_size_error_iff (m : NetworkMessage) (bytes : List Nat) :
    ((m.add_bytes bytes).1 = .error .SizeError ↔
        bytes = [] ∨ m.can_add bytes.length = false ∨
          bytes.length > NETWORKMESSAGE_MAXSIZE) ∧
    ((bytes = [] ∨ m.can_add bytes.length = false ∨
        bytes.length > NETWORKMESSAGE_MAXSIZE) → (m.add_bytes bytes).2 = m) ∧
    (¬(bytes = [] ∨ m.can_add bytes.length = false ∨
        bytes.length > NETWORKMESSAGE_MAXSIZE) →
      (m.add_bytes bytes).1 = .ok ()) := by
  unfold NetworkMessage.add_bytes
  by_cases h1 : bytes.isEmpty
  · have hb : bytes = [] := by simpa using h1
    simp [h1, hb]
  · have hb : ¬ bytes = [] := by simpa using h1
    by_cases h2 : m.can_add bytes.length = true
    · by_cases h3 : bytes.length > NETWORKMESSAGE_MAXSIZE
      · simp [h1, h2, h3, hb]
      · simp [h1, h2, h3, hb]
    · have h2' : m.can_add bytes.length = false := by
        simpa using h2
      simp [h1, h2', hb]

/-- C4 witness: the empty payload is rejected and the fresh state is
returned untouched. -/
theorem add_bytes_size_error_iff_app :
    (NetworkMessage.new.add_bytes []).2 = NetworkMessage.new :=
  (add_bytes_size_error_iff NetworkMessage.new []).2.1 (Or.inl rfl)

/-- C6: `decode_header` returns 0 and leaves `length` alone when fewer than 2
bytes of declared data are available or the decoded little-endian value
exceeds the capacity (the `new_size < 0` arm of the source is unreachable
since both operands of the bit-or come from `u8`); otherwise it stores the
decoded value in `length` and returns it. -/
theorem decode_header_spec (m : NetworkMessage) :
    (m.length < 2 → m.decode_header = (0, m)) ∧
    (2 ≤ m.length → NETWORKMESSAGE_MAXSIZE < m.decodedHeaderValue →
      m.decode_header = (0, m)) ∧
    (2 ≤ m.length → m.decodedHeaderValue ≤ NETWORKMESSAGE_MAXSIZE →
      m.decode_header =
        ((m.decodedHeaderValue : Int), { m with length := m.decodedHeaderValue })) := by
  refine ⟨fun h1 => ?_, fun h1 h2 => ?_, fun h1 h2 => ?_⟩
  · unfold NetworkMessage.decode_header
    rw [if_pos h1]
  · unfold NetworkMessage.decode_header
    rw [if_neg (by omega)]
    simp only [Int.ofNat_eq_natCast, Int.toNat_natCast]
    rw [if_pos (Or.inr h2)]
  · unfold NetworkMessage.decode_header
    rw [if_neg (by omega)]
    simp only [Int.ofNat_eq_natCast, Int.toNat_natCast]
    rw [if_neg (by omega)]

/-- C6 witness: the fresh buffer has `length = 0 < 2`, so `decode_header`
returns the 0 sentinel and the state is untouched. -/
theorem decode_header_spec_app :
    NetworkMessage.new.decode_header = (0, NetworkMessage.new) :=
  (decode_header_spec NetworkMessage.new).1 (by decide)

/-- C7: a nonzero resolved string length that violates the read-bounds
invariant makes `get_string` set the sticky `overrun` flag and fail with
ReadError — both for an explicit length and for a length resolved by the
embedded `get::<u16>()` read. -/
theorem get_string_read_error_sets_overrun (m : NetworkMessage) (l : Nat) :
    (l ≠ 0 → m.can_read l = false →
      m.get_string (some l) = (.error .ReadError, { m with overrun := true })) ∧
    (∀ bs m1, m.get 2 = (bs, m1) → u16ofBytes bs ≠ 0 →
      m1.can_read (u16ofBytes bs) = false →
      m.get_string none = (.error .ReadError, { m1 with overrun := true })) := by
  constructor
  · intro h0 hcr
    simp only [NetworkMessage.get_string]
    rw [if_neg h0, hcr]
    simp
  · intro bs m1 hget h0 hcr
    simp only [NetworkMessage.get_string, hget]
    rw [if_neg h0, hcr]
    simp

/-- C7 witness: on a fresh buffer (`length = 0`), asking for one byte
explicitly violates `position + 1 ≤ length + 8`; `get_string` fails with
ReadError and sets `overrun`. -/
theorem get_string_read_error_sets_overrun_app :
    NetworkMessage.new.get_string (some 1) =
      (.error .ReadError, { NetworkMessage.new with overrun := true }) :=
  (get_string_read_error_sets_overrun NetworkMessage.new 1).1 (by decide) (by decide)

/-- C10: a nonzero length that passes the read-bounds check but selects bytes
that are not valid UTF-8 makes `get_string` fail with InvalidUtf8 only after
the cursor has already been advanced past the consumed bytes. -/
theorem get_string_invalid_utf8_advances_cursor (m : NetworkMessage) (l : Nat)
    (h0 : l ≠ 0) (hcr : m.can_read l = true)
    (hbad : utf8Valid (readBytes m.buffer m.position l) = false) :
    m.get_string (some l) =
      (.error .InvalidUtf8, { m with position := m.position + l }) := by
  simp only [NetworkMessage.get_string]
  rw [if_neg h0, hcr]
  simp [hbad]

/-- C10 witness: reading that byte as a 1-byte string passes the bounds check,
fails UTF-8 decoding, and leaves the cursor advanced to 9. -/
theorem get_string_invalid_utf8_advances_cursor_app :
    badUtf8State.get_string (some 1) =
      (.error .InvalidUtf8, { badUtf8State with position := 8 + 1 }) :=
  get_string_invalid_utf8_advances_cursor badUtf8State 1 (by decide) (by decide)
    (by decide)

/-- C3: writing a scalar value with `add` and reading it back with `get` after
resetting the cursor to the position at which the write occurred yields the
bit-identical byte representation. Stated for any state whose cursor does not
outrun its declared data (`position ≤ length + 8`, which holds in every state
reachable without `decode_header` shrinking `length`) and in which the write
fits. -/
theorem add_get_roundtrip (m : NetworkMessage) (v : List Nat)
    (hcoh : m.position ≤ m.length + INITIAL_BUFFER_POSITION)
    (hadd : m.can_add v.length = true) :
    (m.add v).1 = .ok () ∧
      (({ (m.add v).2 with position := m.position }).get v.length).1 = v := by
  have hlt : v.length + m.position < MAX_BODY_LENGTH := by
    simpa [NetworkMessage.can_add] using hadd
  rw [MAX_BODY_LENGTH_eq] at hlt
  rw [INITIAL_BUFFER_POSITION_eq] at hcoh
  have hadd2 : m.add v =
      (.ok (),
        { m with
          buffer := writeBytes m.buffer m.position v
          position := m.position + v.length
          length := m.length + v.length }) := by
    unfold NetworkMessage.add
    rw [hadd]
    rfl
  rw [hadd2]
  refine ⟨rfl, ?_⟩
  unfold NetworkMessage.get
  split
  · rename_i hfail
    exfalso
    rw [Bool.not_eq_true', Bool.eq_false_iff] at hfail
    simp only [ne_eq, can_read_eq_true_iff, NETWORKMESSAGE_MAXSIZE_eq,
      INITIAL_BUFFER_POSITION_eq, NetworkMessage.new] at hfail
    omega
  · exact readBytes_writeBytes m.buffer m.position v

/-- C3 witness: the two-byte value `[7, 1]` written on a fresh buffer reads
back bit-identically after the cursor is reset to the write position. -/
theorem add_get_roundtrip_app :
    (NetworkMessage.new.add [7, 1]).1 = .ok () ∧
      (({ (NetworkMessage.new.add [7, 1]).2 with
          position := NetworkMessage.new.position }).get
        (List.length [7, 1])).1 = [7, 1] :=
  add_get_roundtrip NetworkMessage.new [7, 1] (by decide) (by decide)

/-- C2 counterexample: on a fresh buffer, `add_bytes([97])` succeeds but
leaves the cursor at the end of the written data, so the immediately
following `get_string(Some(1))` fails with ReadError instead of returning the
one-byte string `"a"` — the round trip does not hold as the claim states it. -/
theorem add_bytes_get_string_no_reset_fails :
    ((NetworkMessage.new.add_bytes [97]).2.get_string (some 1)).1 =
      .error .ReadError := by
  rfl

/-- C2 amended: on a fresh buffer, for every nonempty valid UTF-8 byte
sequence `s` whose write fits the write-bounds invariant, `add_bytes(s)`
followed by resetting the cursor to the initial position 8 and then
`get_string(Some(s.length))` returns a string equal to `s`. -/
theorem add_bytes_reset_get_string_roundtrip (s : List Nat)
    (hne : s ≠ []) (hfit : s.length + INITIAL_BUFFER_POSITION < MAX_BODY_LENGTH)
    (hutf : utf8Valid s = true) :
    (({ (NetworkMessage.new.add_bytes s).2 with
        position := INITIAL_BUFFER_POSITION }).get_string (some s.length)).1 =
      .ok s := by
  rw [MAX_BODY_LENGTH_eq, INITIAL_BUFFER_POSITION_eq] at hfit
  have h1 : NetworkMessage.new.add_bytes s =
      (.ok (),
        { buffer := writeBytes NetworkMessage.new.buffer NetworkMessage.new.position s
          bufLen := NetworkMessage.new.bufLen
          position := NetworkMessage.new.position + s.length
          length := NetworkMessage.new.length + s.length
          overrun := NetworkMessage.new.overrun }) := by
    unfold NetworkMessage.add_bytes
    rw [if_neg (by simpa using hne)]
    rw [if_neg (by
      simp only [NetworkMessage.can_add, Bool.not_eq_true', decide_eq_false_iff_not,
        not_not, not_lt, NetworkMessage.new, MAX_BODY_LENGTH_eq, INITIAL_BUFFER_POSITION_eq]
      omega)]
    rw [if_neg (by
      simp only [NETWORKMESSAGE_MAXSIZE_eq, not_lt]
      omega)]
    rw [if_neg (by
      simp only [NetworkMessage.new, NETWORKMESSAGE_MAXSIZE_eq,
        INITIAL_BUFFER_POSITION_eq, not_lt]
      omega)]
  rw [h1]
  simp only [NetworkMessage.get_string, NetworkMessage.new,
    INITIAL_BUFFER_POSITION_eq, NETWORKMESSAGE_MAXSIZE_eq, Nat.zero_add]
  rw [if_neg (by simpa [List.length_eq_zero] using hne)]
  split
  · rename_i hfail
    exfalso
    rw [Bool.not_eq_true', Bool.eq_false_iff] at hfail
    simp only [ne_eq, can_read_eq_true_iff, NETWORKMESSAGE_MAXSIZE_eq,
      INITIAL_BUFFER_POSITION_eq, NetworkMessage.new] at hfail
    omega
  · rw [show (readBytes (writeBytes (fun _ => 0) 8 s) 8 s.length) = s from
      readBytes_writeBytes (fun _ => 0) 8 s]
    rw [hutf]
    rfl

/-- C2 witness: the two-byte ASCII string "hi" round-trips through
`add_bytes` and a cursor-reset `get_string`. -/
theorem add_bytes_reset_get_string_roundtrip_app :
    (({ (NetworkMessage.new.add_bytes [104, 105]).2 with
        position := INITIAL_BUFFER_POSITION }).get_string
      (some (List.length [104, 105]))).1 = .ok [104, 105] :=
  add_bytes_reset_get_string_roundtrip [104, 105] (by decide) (by decide) (by decide)

/-- A payload whose write would violate the write-bounds invariant is
rejected by `add_bytes` with the state unchanged, whether or not it is
empty. -/
theorem add_bytes_unfit (m : NetworkMessage) (bytes : List Nat)
    (h : ¬ bytes.length + m.position < MAX_BODY_LENGTH) :
    m.add_bytes bytes = (.error .SizeError, m) := by
  unfold NetworkMessage.add_bytes
  by_cases hemp : bytes.isEmpty
  · rw [if_pos hemp]
  · rw [if_neg hemp]
    rw [if_pos (by
      rw [Bool.not_eq_true']
      unfold NetworkMessage.can_add
      exact decide_eq_false h)]

/-- A chunk whose write violates the write-bounds invariant makes the capture
loop skip the forwarding send (`continue`). -/
theorem processChunk_none_of_unfit (bytes : List Nat)
    (h : ¬ bytes.length + INITIAL_BUFFER_POSITION < MAX_BODY_LENGTH) :
    processChunk bytes = none := by
  unfold processChunk
  rw [add_bytes_unfit NetworkMessage.new bytes h]

/-- C5 counterexample: a chunk large enough to violate the write-bounds
invariant (65478 zero bytes, which the framed reader can deliver in one read)
makes the inspection-side `add_bytes` fail, and the capture loop then skips
the forwarding send entirely (`continue`), so the chunk is dropped instead of
being pushed onto the forwarding queue as the claim states. -/
theorem capture_drops_oversize_chunk :
    processChunk (List.replicate 65478 0) = none :=
  processChunk_none_of_unfit (List.replicate 65478 0) (by
    rw [List.length_replicate]
    decide)

/-- C5 amended: a chunk accepted by `add_bytes` (nonempty and within the
write-bounds invariant) is always forwarded unchanged — in particular a
`get_string` failure never prevents forwarding — but a chunk rejected by
`add_bytes` is skipped and not forwarded; in both cases the loop moves on to
the remaining chunks (the capturing task is not aborted). -/
theorem capture_forwarding_behavior (bytes : List Nat) (rest : List (List Nat)) :
    (bytes ≠ [] → bytes.length + INITIAL_BUFFER_POSITION < MAX_BODY_LENGTH →
      processChunk bytes = some bytes) ∧
    ((bytes = [] ∨ ¬ bytes.length + INITIAL_BUFFER_POSITION < MAX_BODY_LENGTH) →
      processChunk bytes = none) ∧
    captureForward (bytes :: rest) = (processChunk bytes).toList ++ captureForward rest := by
  refine ⟨?_, ?_, ?_⟩
  · intro hne hfit
    rw [MAX_BODY_LENGTH_eq, INITIAL_BUFFER_POSITION_eq] at hfit
    have h1 : NetworkMessage.new.add_bytes bytes =
        (.ok (),
          { buffer := writeBytes NetworkMessage.new.buffer NetworkMessage.new.position bytes
            bufLen := NetworkMessage.new.bufLen
            position := NetworkMessage.new.position + bytes.length
            length := NetworkMessage.new.length + bytes.length
            overrun := NetworkMessage.new.overrun }) := by
      unfold NetworkMessage.add_bytes
      rw [if_neg (by simpa using hne)]
      rw [if_neg (by
        simp only [NetworkMessage.can_add, Bool.not_eq_true', decide_eq_false_iff_not,
          not_not, not_lt, NetworkMessage.new, MAX_BODY_LENGTH_eq, INITIAL_BUFFER_POSITION_eq]
        omega)]
      rw [if_neg (by
        simp only [NETWORKMESSAGE_MAXSIZE_eq, not_lt]
        omega)]
      rw [if_neg (by
        simp only [NetworkMessage.new, NETWORKMESSAGE_MAXSIZE_eq,
          INITIAL_BUFFER_POSITION_eq, not_lt]
        omega)]
    unfold processChunk
    rw [h1]
  · intro hcase
    rcases hcase with hne | hfit
    · subst hne
      rfl
    · exact processChunk_none_of_unfit bytes hfit
  · cases h : processChunk bytes <;>
      simp [captureForward, List.filterMap_cons, h]

/-- C5 witness: the one-byte chunk `[97]` is forwarded unchanged. -/
theorem capture_forwarding_behavior_app :
    processChunk [97] = some [97] :=
  (capture_forwarding_behavior [97] []).1 (by decide) (by decide)

/-- Under the invariant, every read window admitted by `can_read` lies within
the backing allocation. -/
theorem can_read_window_le (m : NetworkMessage) (hm : BufferInv m) (w : Nat)
    (h : m.can_read w = true) : m.position + w ≤ m.bufLen := by
  obtain ⟨hb, hp⟩ := hm
  rw [can_read_eq_true_iff] at h
  rw [NETWORKMESSAGE_MAXSIZE_eq] at hb hp
  rw [NETWORKMESSAGE_MAXSIZE_eq, INITIAL_BUFFER_POSITION_eq] at h
  omega

/-- Under the invariant, every write window admitted by `can_add` lies within
the backing allocation (so `add` writes in range and `add_bytes` never needs
its conditional resize). -/
theorem can_add_window_le (m : NetworkMessage) (hm : BufferInv m) (k : Nat)
    (h : m.can_add k = true) : m.position + k ≤ m.bufLen := by
  obtain ⟨hb, hp⟩ := hm
  rw [can_add_eq_true_iff, MAX_BODY_LENGTH_eq] at h
  rw [NETWORKMESSAGE_MAXSIZE_eq] at hb hp
  omega

/-- `add_bytes` preserves the invariant. -/
theorem BufferInv_add_bytes (m : NetworkMessage) (hm : BufferInv m)
    (bs : List Nat) : BufferInv (m.add_bytes bs).2 := by
  obtain ⟨hb, hp⟩ := hm
  unfold NetworkMessage.add_bytes
  split
  · exact ⟨hb, hp⟩
  · split
    · exact ⟨hb, hp⟩
    · split
      · exact ⟨hb, hp⟩
      · rename_i hc2 _
        have hca : bs.length + m.position < MAX_BODY_LENGTH := by
          rw [← can_add_eq_true_iff]
          revert hc2
          cases m.can_add bs.length <;> simp
        rw [MAX_BODY_LENGTH_eq] at hca
        rw [NETWORKMESSAGE_MAXSIZE_eq] at hb hp
        split
        · rename_i hresize
          exfalso
          omega
        · refine ⟨?_, ?_⟩
          · simpa [NETWORKMESSAGE_MAXSIZE_eq] using hb
          · simp only [NETWORKMESSAGE_MAXSIZE_eq]
            omega

/-- `add` preserves the invariant. -/
theorem BufferInv_add (m : NetworkMessage) (hm : BufferInv m)
    (v : List Nat) : BufferInv (m.add v).2 := by
  obtain ⟨hb, hp⟩ := hm
  unfold NetworkMessage.add
  split
  · exact ⟨hb, hp⟩
  · rename_i hc
    have hca : v.length + m.position < MAX_BODY_LENGTH := by
      rw [← can_add_eq_true_iff]
      revert hc
      cases m.can_add v.length <;> simp
    rw [MAX_BODY_LENGTH_eq] at hca
    rw [NETWORKMESSAGE_MAXSIZE_eq] at hp
    refine ⟨hb, ?_⟩
    simp only [NETWORKMESSAGE_MAXSIZE_eq]
    omega

/-- `get` preserves the invariant. -/
theorem BufferInv_get (m : NetworkMessage) (hm : BufferInv m)
    (w : Nat) : BufferInv (m.get w).2 := by
  obtain ⟨hb, hp⟩ := hm
  unfold NetworkMessage.get
  split
  · exact ⟨hb, hp⟩
  · rename_i hc
    have hcr : m.position + w ≤ m.length + INITIAL_BUFFER_POSITION ∧
        w < NETWORKMESSAGE_MAXSIZE - m.position := by
      rw [← can_read_eq_true_iff]
      revert hc
      cases m.can_read w <;> simp
    rw [NETWORKMESSAGE_MAXSIZE_eq] at hcr hp
    refine ⟨hb, ?_⟩
    simp only [NETWORKMESSAGE_MAXSIZE_eq]
    omega

/-- `get_string` preserves the invariant. -/
theorem BufferInv_get_string (m : NetworkMessage) (hm : BufferInv m)
    (o : Option Nat) : BufferInv (m.get_string o).2 := by
  have core : ∀ (m1 : NetworkMessage), BufferInv m1 → ∀ l : Nat,
      BufferInv (if l = 0 then ((.ok [], m1) :
            Except NetworkMessageError (List Nat) × NetworkMessage)
          else if !(m1.can_read l) then (.error .ReadError, { m1 with overrun := true })
          else
            let start := m1.position
            let m2 := { m1 with position := m1.position + l }
            let s := readBytes m1.buffer start l
            if utf8Valid s then (.ok s, m2)
            else (.error .InvalidUtf8, m2)).2 := by
    intro m1 hm1 l
    obtain ⟨hb, hp⟩ := hm1
    split
    · exact ⟨hb, hp⟩
    · split
      · exact ⟨hb, hp⟩
      · rename_i hc
        have hcr : m1.position + l ≤ m1.length + INITIAL_BUFFER_POSITION ∧
            l < NETWORKMESSAGE_MAXSIZE - m1.position := by
          rw [← can_read_eq_true_iff]
          revert hc
          cases m1.can_read l <;> simp
        rw [NETWORKMESSAGE_MAXSIZE_eq] at hcr hp
        dsimp only
        split
        · refine ⟨hb, ?_⟩
          simp only [NETWORKMESSAGE_MAXSIZE_eq]
          omega
        · refine ⟨hb, ?_⟩
          simp only [NETWORKMESSAGE_MAXSIZE_eq]
          omega
  cases o with
  | some l => exact core m hm l
  | none =>
    rcases hg : m.get 2 with ⟨bs, m1⟩
    have hm1 : BufferInv m1 := by
      have h := BufferInv_get m hm 2
      rw [hg] at h
      exact h
    have hrw : m.get_string none =
        (if u16ofBytes bs = 0 then ((.ok [], m1) :
              Except NetworkMessageError (List Nat) × NetworkMessage)
            else if !(m1.can_read (u16ofBytes bs)) then
              (.error .ReadError, { m1 with overrun := true })
            else
              let start := m1.position
              let m2 := { m1 with position := m1.position + u16ofBytes bs }
              let s := readBytes m1.buffer start (u16ofBytes bs)
              if utf8Valid s then (.ok s, m2)
              else (.error .InvalidUtf8, m2)) := by
      simp only [NetworkMessage.get_string, hg]
    rw [hrw]
    exact core m1 hm1 (u16ofBytes bs)

/-- C9: starting from `new()`, the bounds guards keep every buffer access in
range: the fresh state satisfies the allocation invariant, each of the four
operations preserves it, and under it every read window admitted by
`can_read` and every write window admitted by `can_add` (hence the `add`,
`get`, `get_string` accesses, and the `add_bytes` window, whose conditional
resize never fires on such states) lies inside the backing allocation
`bufLen` — so no slice access is out of range and the operations are total. -/
theorem buffer_ops_in_bounds :
    BufferInv NetworkMessage.new ∧
    ∀ m, BufferInv m →
      (∀ w, m.can_read w = true → m.position + w ≤ m.bufLen) ∧
      (∀ k, m.can_add k = true → m.position + k ≤ m.bufLen) ∧
      (∀ bs, BufferInv (m.add_bytes bs).2) ∧
      (∀ v, BufferInv (m.add v).2) ∧
      (∀ w, BufferInv (m.get w).2) ∧
      (∀ o, BufferInv (m.get_string o).2) :=
  ⟨⟨rfl, by decide⟩, fun m hm =>
    ⟨fun w hw => can_read_window_le m hm w hw,
     fun k hk => can_add_window_le m hm k hk,
     fun bs => BufferInv_add_bytes m hm bs,
     fun v => BufferInv_add m hm v,
     fun w => BufferInv_get m hm w,
     fun o => BufferInv_get_string m hm o⟩⟩

/-- C9 witness: on the fresh state the two-byte write window admitted by
`can_add` lies within the 65500-byte allocation. -/
theorem buffer_ops_in_bounds_app :
    NetworkMessage.new.position + 2 ≤ NetworkMessage.new.bufLen :=
  (buffer_ops_in_bounds.2 NetworkMessage.new buffer_ops_in_bounds.1).2.1 2 (by decide)
